import Mathlib

/-!
Verification of `transcription_server.py` (VoiceScribe).

The Python source is shallowly embedded below. External collaborators
(the mlx-audio model, `json.loads`, `os.unlink`) are passed in as explicit
oracles, so every definition is executable and every behaviour of the
environment is quantified over.
-/

/-- Opaque handle to the loaded model object. Its behaviour is irrelevant:
all inference behaviour enters through the `gen` oracle standing for
`model.generate`. -/
def Model := Unit

/-- The dictionary returned by `transcribe_audio` (line 36-48):
either a transcript with no error, or an empty text with an error string. -/
structure TranscribeResult where
  text : String
  error : Option String
deriving Repr, DecidableEq

/-- Lock-related events emitted while running `transcribe_audio`:
entering the `with model_lock` block, invoking `model.generate`,
and leaving the `with` block (which releases the lock). -/
inductive Ev
| acquire
| invoke
| release
deriving Repr, DecidableEq

/-- A fallible computation together with the lock events it emits. -/
structure LockRun (α : Type) where
  events : List Ev
  outcome : Except String α

/-- Python `with model_lock:` (line 43): the lock is acquired on entry and
released on every exit of the block, normal return and raised exception
alike, by the context-manager protocol of `threading.Lock`. -/
def withModelLock {α : Type} (body : LockRun α) : LockRun α :=
  ⟨Ev.acquire :: body.events ++ [Ev.release], body.outcome⟩

/-- The single inference call `model.generate(audio_path)` (line 45);
it may raise, which the oracle reports as `Except.error`. -/
def generateRun (gen : Model → String → Except String String)
    (m : Model) (audio_path : String) : LockRun String :=
  ⟨[Ev.invoke], gen m audio_path⟩

/-- `transcribe_audio` (lines 36-48). Returns the emitted lock events
together with the result dictionary. The `try/except` around the `with`
block converts any exception raised by the model call into
a result with `error` set and `text` empty (line 47-48); if `model is None`
it returns early without touching the lock (lines 39-40). -/
def transcribe_audio (model : Option Model)
    (gen : Model → String → Except String String)
    (audio_path : String) : List Ev × TranscribeResult :=
  match model with
  | none => ([], { text := "", error := some "Model not loaded" })
  | some m =>
    let run := withModelLock (generateRun gen m audio_path)
    match run.outcome with
    | Except.ok t => (run.events, { text := t, error := none })
    | Except.error e => (run.events, { text := "", error := some e })

/-! ## Two-thread interleaving semantics for the lock

Two request-handler threads each execute the event program of
`transcribe_audio` on a loaded model. `acquire` is enabled only when the
lock is free, and `release` only for the holder, matching
`threading.Lock`. The `invoke` step itself is unguarded: nothing in Python
stops a thread from calling the model without the lock, so mutual
exclusion must emerge from the program order alone. A thread is
executing the inference call exactly when it has taken its `invoke` step
but not yet the step that returns from the call and releases the lock,
i.e. when its remaining program is `[Ev.release]`. -/

/-- A state of the two-thread system: the remaining event program of each
thread, and the lock (none = free, some false / some true = held by
thread 0 / thread 1). -/
structure MState where
  rem0 : List Ev
  rem1 : List Ev
  lock : Option Bool
deriving Repr, DecidableEq

/-- One interleaving step of either thread. -/
inductive LStep : MState → MState → Prop
| acq0 (r0 r1 : List Ev) :
    LStep ⟨Ev.acquire :: r0, r1, none⟩ ⟨r0, r1, some false⟩
| inv0 (r0 r1 : List Ev) (l : Option Bool) :
    LStep ⟨Ev.invoke :: r0, r1, l⟩ ⟨r0, r1, l⟩
| rel0 (r0 r1 : List Ev) :
    LStep ⟨Ev.release :: r0, r1, some false⟩ ⟨r0, r1, none⟩
| acq1 (r0 r1 : List Ev) :
    LStep ⟨r0, Ev.acquire :: r1, none⟩ ⟨r0, r1, some true⟩
| inv1 (r0 r1 : List Ev) (l : Option Bool) :
    LStep ⟨r0, Ev.invoke :: r1, l⟩ ⟨r0, r1, l⟩
| rel1 (r0 r1 : List Ev) :
    LStep ⟨r0, Ev.release :: r1, some true⟩ ⟨r0, r1, none⟩

/-- Reachability of the interleaving semantics. -/
def Reach : MState → MState → Prop := Relation.ReflTransGen LStep

/-- Initial state: both threads are about to run the given event program,
the lock is free. -/
def initState (prog : List Ev) : MState := ⟨prog, prog, none⟩

/-- The event program of one `transcribe_audio` call on a loaded model. -/
def lockProg : List Ev := [Ev.acquire, Ev.invoke, Ev.release]

/-- The inductive invariant: each remaining program is a suffix of
`lockProg`, and a thread that is past its `acquire` but not past its
`release` holds the lock. -/
def LockInv (s : MState) : Prop :=
  (s.rem0 = lockProg ∨ s.rem0 = [Ev.invoke, Ev.release] ∨
     s.rem0 = [Ev.release] ∨ s.rem0 = []) ∧
  (s.rem1 = lockProg ∨ s.rem1 = [Ev.invoke, Ev.release] ∨
     s.rem1 = [Ev.release] ∨ s.rem1 = []) ∧
  ((s.rem0 = [Ev.invoke, Ev.release] ∨ s.rem0 = [Ev.release]) →
     s.lock = some false) ∧
  ((s.rem1 = [Ev.invoke, Ev.release] ∨ s.rem1 = [Ev.release]) →
     s.lock = some true)

theorem lockInv_init : LockInv (initState lockProg) := by
  refine ⟨Or.inl rfl, Or.inl rfl, ?_, ?_⟩ <;> intro h <;>
    rcases h with h | h <;> simp [initState, lockProg] at h

theorem lockInv_step {s s' : MState} (hs : LockInv s) (h : LStep s s') : LockInv s' := by
  obtain ⟨h0, h1, hl0, hl1⟩ := hs
  cases h with
  | acq0 r0 r1 =>
    refine ⟨?_, h1, ?_, ?_⟩
    · rcases h0 with h | h | h | h <;> simp_all [lockProg]
    · intro _; rfl
    · intro hc
      have := hl1 hc
      simp_all
  | inv0 r0 r1 l =>
    refine ⟨?_, h1, ?_, ?_⟩
    · rcases h0 with h | h | h | h <;> simp_all [lockProg]
    · intro hc
      rcases hc with hc | hc
      · rcases h0 with h | h | h | h <;> simp_all [lockProg]
      · subst hc
        exact hl0 (by rcases h0 with h | h | h | h <;> simp_all [lockProg])
    · intro hc; exact hl1 hc
  | rel0 r0 r1 =>
    refine ⟨?_, h1, ?_, ?_⟩
    · rcases h0 with h | h | h | h <;> simp_all [lockProg]
    · intro hc
      rcases h0 with h | h | h | h <;> simp_all [lockProg]
    · intro hc
      have := hl1 hc
      simp_all
  | acq1 r0 r1 =>
    refine ⟨h0, ?_, ?_, ?_⟩
    · rcases h1 with h | h | h | h <;> simp_all [lockProg]
    · intro hc
      have := hl0 hc
      simp_all
    · intro _; rfl
  | inv1 r0 r1 l =>
    refine ⟨h0, ?_, ?_, ?_⟩
    · rcases h1 with h | h | h | h <;> simp_all [lockProg]
    · intro hc; exact hl0 hc
    · intro hc
      rcases hc with hc | hc
      · rcases h1 with h | h | h | h <;> simp_all [lockProg]
      · subst hc
        exact hl1 (by rcases h1 with h | h | h | h <;> simp_all [lockProg])
  | rel1 r0 r1 =>
    refine ⟨h0, ?_, ?_, ?_⟩
    · rcases h1 with h | h | h | h <;> simp_all [lockProg]
    · intro hc
      have := hl0 hc
      simp_all
    · intro hc
      rcases h1 with h | h | h | h <;> simp_all [lockProg]

theorem lockInv_reach {s : MState} (h : Reach (initState lockProg) s) : LockInv s := by
  induction h with
  | refl => exact lockInv_init
  | tail _ hstep ih => exact lockInv_step ih hstep

/-- C1: on a loaded model, every `transcribe_audio` run acquires the lock
before invoking the model and releases it on every exit path (the event
trace is acquire-invoke-release for both a succeeding and a raising model
call), and in the two-thread interleaving semantics no reachable state has
both threads inside the model inference call. -/
theorem transcribe_lock_mutual_exclusion (m : Model)
    (gen : Model → String → Except String String) (p : String) (s : MState)
    (h : Reach (initState (transcribe_audio (some m) gen p).1) s) :
    (transcribe_audio (some m) gen p).1 = [Ev.acquire, Ev.invoke, Ev.release]
    ∧ ¬ (s.rem0 = [Ev.release] ∧ s.rem1 = [Ev.release]) := by
  have hprog : (transcribe_audio (some m) gen p).1 = lockProg := by
    cases hg : gen m p <;>
      simp [transcribe_audio, withModelLock, generateRun, lockProg, hg]
  refine ⟨hprog, ?_⟩
  rw [hprog] at h
  have hinv := lockInv_reach h
  rintro ⟨e0, e1⟩
  have a := hinv.2.2.1 (Or.inr e0)
  have b := hinv.2.2.2 (Or.inr e1)
  rw [a] at b
  simp at b

theorem transcribe_lock_mutual_exclusion_witness :
    (transcribe_audio (some ()) (fun _ _ => Except.error "boom") "a.wav").1
      = [Ev.acquire, Ev.invoke, Ev.release]
    ∧ ¬ ((initState (transcribe_audio (some ())
            (fun _ _ => Except.error "boom") "a.wav").1).rem0 = [Ev.release]
         ∧ (initState (transcribe_audio (some ())
            (fun _ _ => Except.error "boom") "a.wav").1).rem1 = [Ev.release]) :=
  transcribe_lock_mutual_exclusion () (fun _ _ => Except.error "boom") "a.wav"
    _ Relation.ReflTransGen.refl

/-! ## Process-global state -/

/-- The module-level globals of the program (lines 17-20): `model` starts as
None and `model_loaded` starts as False. -/
structure Globals where
  model : Option Model
  model_loaded : Bool

/-- Initial global state (lines 18-20). -/
def initGlobals : Globals := ⟨none, false⟩

/-- `load_parakeet_model` (lines 22-34). `loadResult` stands for the outcome
of the external `load_model` call; on success the function sets both
globals and returns True, on exception it leaves them unchanged and
returns False. -/
def load_parakeet_model (loadResult : Except String Model) (g : Globals) :
    Globals × Bool :=
  match loadResult with
  | Except.ok m => (⟨some m, true⟩, true)
  | Except.error _ => (g, false)

/-! ## JSON values and the HTTP layer -/

/-- JSON values, as produced by `json.loads` and consumed by `json.dumps`.
Objects are association lists in insertion order (`json.dumps` preserves
key order; `json.loads` keeps the last duplicate, so oracle outputs are
taken to be duplicate-free). -/
inductive Json
| jnull
| jbool (b : Bool)
| jnum (n : Int)
| jstr (s : String)
| jarr (xs : List Json)
| jobj (fields : List (String × Json))

/-- Response body: a JSON document (`send_json_response`), the empty body of
`do_OPTIONS`, or the opaque HTML page that `send_error` of the base
handler class produces. -/
inductive Body
| json (j : Json)
| empty
| htmlError (code : Nat)

/-- An HTTP response as the handler emits it: status code and body.
Every `send_json_response` call also attaches Content-Type and CORS
headers, identical on all paths, so they are not tracked. -/
structure Response where
  status : Nat
  body : Body

/-- An inbound request: raw path (line after the method), the parsed
Content-Length header (`none` models a missing or unparsable header,
where `int(...)` raises), and the raw body bytes. -/
structure HttpRequest where
  path : String
  contentLength : Option Nat
  body : String

/-- The filesystem visible to the handler: files on disk and the counter
that makes `tempfile.NamedTemporaryFile` names fresh. -/
structure FSState where
  files : List (String × String)
  nextTemp : Nat

/-- The external collaborators of the handler, passed as oracles:
`model.generate`, `json.loads`, and whether `os.unlink` raises. -/
structure Env where
  gen : Model → String → Except String String
  jloads : String → Except String Json
  unlinkRaises : Bool

/-- The path component of `urlparse(p)`: everything before the query and
the fragment. -/
def urlPath (s : String) : String :=
  String.mk (s.data.takeWhile (fun c => !(c == Char.ofNat 63 || c == Char.ofNat 35)))

def prefixOfList (n h : List Char) : Bool :=
  match n, h with
  | [], _ => true
  | _ :: _, [] => false
  | a :: as, b :: bs => a == b && prefixOfList as bs

def infixOfList (n h : List Char) : Bool :=
  match h with
  | [] => prefixOfList n []
  | b :: bs => prefixOfList n (b :: bs) || infixOfList n bs

/-- Python `k in data` on the value returned by `json.loads` (line 110):
key membership for a dict, element membership for a list, substring test
for a str, and a TypeError for the non-iterable scalars. -/
def pyIn (k : String) : Json → Except String Bool
| Json.jobj fields => Except.ok (fields.any (fun kv => kv.1 == k))
| Json.jarr xs =>
    Except.ok (xs.any (fun v => match v with
      | Json.jstr s => s == k
      | _ => false))
| Json.jstr s => Except.ok (infixOfList k.data s.data)
| Json.jnull => Except.error "TypeError: argument of type NoneType is not iterable"
| Json.jbool _ => Except.error "TypeError: argument of type bool is not iterable"
| Json.jnum _ => Except.error "TypeError: argument of type int is not iterable"

/-- Python `data[k]` for a string key (line 114): dict lookup, TypeError
for every other JSON value. -/
def pyIndex (j : Json) (k : String) : Except String Json :=
  match j with
  | Json.jobj fields =>
      match fields.lookup k with
      | some v => Except.ok v
      | none => Except.error ("KeyError: " ++ k)
  | Json.jarr _ => Except.error "TypeError: list indices must be integers or slices, not str"
  | Json.jstr _ => Except.error "TypeError: string indices must be integers"
  | _ => Except.error "TypeError: object is not subscriptable"

/-- Python passes `data[..]` to `transcribe_audio` unmodified; the model
call is an opaque oracle over its argument, so a non-string JSON value is
represented by a tag. Every settled claim exercises only string values. -/
def pathArg : Json → String
| Json.jstr s => s
| _ => "<non-string-path>"

/-- Serialization of the `transcribe_audio` result dict, preserving the key
order of each source branch. -/
def resultJson (r : TranscribeResult) : Json :=
  match r.error with
  | some e => Json.jobj [("error", Json.jstr e), ("text", Json.jstr r.text)]
  | none => Json.jobj [("text", Json.jstr r.text), ("error", Json.jnull)]

def notFoundJson : Json := Json.jobj [("error", Json.jstr "Not found")]

def noPathJson : Json := Json.jobj [("error", Json.jstr "No path provided")]

def healthJson (loaded : Bool) : Json :=
  Json.jobj [("status", Json.jstr "ok"), ("model_loaded", Json.jbool loaded)]

def statusJson (loaded : Bool) : Json :=
  Json.jobj [("model_loaded", Json.jbool loaded),
             ("model_name", Json.jstr "parakeet-tdt-0.6b-v2")]

/-- Field lookup in a JSON object. -/
def jlookup (j : Json) (k : String) : Option Json :=
  match j with
  | Json.jobj fields => fields.lookup k
  | _ => none

/-- `do_GET` (lines 65-80): `/health` and `/status` answer 200 with the
readiness flag, everything else answers 404. -/
def do_GET (loaded : Bool) (reqPath : String) : Response :=
  if urlPath reqPath = "/health" then ⟨200, Body.json (healthJson loaded)⟩
  else if urlPath reqPath = "/status" then ⟨200, Body.json (statusJson loaded)⟩
  else ⟨404, Body.json notFoundJson⟩

/-- The fresh name that `tempfile.NamedTemporaryFile` with suffix `.wav`
produces for the k-th temporary file (line 91). -/
def tempName (k : Nat) : String := "/tmp/tmp" ++ toString k ++ ".wav"

/-- `os.unlink p` on the file list. -/
def unlinkFS (p : String) (files : List (String × String)) :
    List (String × String) :=
  files.filter (fun f => f.1 != p)

/-- `do_POST` (lines 82-118). An `Except.error` result is an exception that
escapes the handler method uncaught. On `/transcribe` the body is written
to a fresh `.wav` temporary file, `transcribe_audio` runs on that path,
and the `finally` block unlinks the file, swallowing any unlink failure.
On `/transcribe-file` the body is decoded as JSON; a missing `path` key
answers 400, otherwise `transcribe_audio` runs directly on the given
path. Any other path answers 404. -/
def do_POST (env : Env) (g : Globals) (fs : FSState) (req : HttpRequest) :
    Except String (Response × FSState) :=
  if urlPath req.path = "/transcribe" then
    match req.contentLength with
    | none => Except.error "TypeError: int() argument must not be NoneType"
    | some n =>
      let post_data := req.body.take n
      let temp_path := tempName fs.nextTemp
      let fs1 : FSState := ⟨fs.files ++ [(temp_path, post_data)], fs.nextTemp + 1⟩
      let result := (transcribe_audio g.model env.gen temp_path).2
      let fs2 : FSState :=
        if env.unlinkRaises then fs1 else ⟨unlinkFS temp_path fs1.files, fs1.nextTemp⟩
      Except.ok (⟨200, Body.json (resultJson result)⟩, fs2)
  else if urlPath req.path = "/transcribe-file" then
    match req.contentLength with
    | none => Except.error "TypeError: int() argument must not be NoneType"
    | some n =>
      let post_data := req.body.take n
      match env.jloads post_data with
      | Except.error e => Except.error e
      | Except.ok data =>
        match pyIn "path" data with
        | Except.error e => Except.error e
        | Except.ok false => Except.ok (⟨400, Body.json noPathJson⟩, fs)
        | Except.ok true =>
          match pyIndex data "path" with
          | Except.error e => Except.error e
          | Except.ok v =>
            let result := (transcribe_audio g.model env.gen (pathArg v)).2
            Except.ok (⟨200, Body.json (resultJson result)⟩, fs)
  else
    Except.ok (⟨404, Body.json notFoundJson⟩, fs)

/-- The operations of the program that can touch the process-global state.
Only `load_parakeet_model` assigns `model` or `model_loaded` (lines
28-29); every request handler (lines 50-126) only reads them. -/
inductive ProgOp
| load (r : Except String Model)
| get (path : String)
| post (env : Env) (req : HttpRequest)
| options

/-- Effect of one operation on the globals: the handlers leave them
unchanged. -/
def applyOp (g : Globals) : ProgOp → Globals
| ProgOp.load r => (load_parakeet_model r g).1
| ProgOp.get _ => g
| ProgOp.post _ _ => g
| ProgOp.options => g

/-- The globals after running a sequence of operations from process
start. -/
def runOps (ops : List ProgOp) : Globals := ops.foldl applyOp initGlobals

/-- Whether an operation is a successful model load. -/
def loadSucceeded : ProgOp → Bool
| ProgOp.load (Except.ok _) => true
| _ => false

theorem applyOp_loaded_mono (g : Globals) (op : ProgOp)
    (h : g.model_loaded = true) : (applyOp g op).model_loaded = true := by
  cases op with
  | load r => cases r <;> simp [applyOp, load_parakeet_model, h]
  | get p => exact h
  | post env req => exact h
  | options => exact h

theorem foldl_loaded_mono (ops : List ProgOp) (g : Globals)
    (h : g.model_loaded = true) :
    (ops.foldl applyOp g).model_loaded = true := by
  induction ops generalizing g with
  | nil => exact h
  | cons op rest ih => exact ih (applyOp g op) (applyOp_loaded_mono g op h)

theorem foldl_loaded_of_no_load (ops : List ProgOp) (g : Globals)
    (h : ∀ op ∈ ops, loadSucceeded op = false) :
    (ops.foldl applyOp g).model_loaded = g.model_loaded := by
  induction ops generalizing g with
  | nil => rfl
  | cons op rest ih =>
    have hop : loadSucceeded op = false := h op (List.mem_cons_self op rest)
    have hrest : ∀ o ∈ rest, loadSucceeded o = false :=
      fun o ho => h o (List.mem_cons_of_mem op ho)
    have : applyOp g op = g := by
      cases op with
      | load r =>
        cases r with
        | ok m => simp [loadSucceeded] at hop
        | error e => rfl
      | get p => rfl
      | post env req => rfl
      | options => rfl
    rw [List.foldl_cons, this, ih g hrest]

/-! ## The server class and its scheduling -/

/-- The two server classes of `http.server`; only the second mixes in
`socketserver.ThreadingMixIn` and spawns a thread per connection. -/
inductive ServerClass
| plainHTTPServer
| threadingHTTPServer

/-- `run_server` (line 130) constructs `HTTPServer`, the synchronous
`socketserver.TCPServer` subclass without `ThreadingMixIn`. -/
def run_server_serverClass : ServerClass := ServerClass.plainHTTPServer

/-- Whether a server class handles each connection on its own thread. -/
def handlesConcurrently : ServerClass → Bool
| ServerClass.plainHTTPServer => false
| ServerClass.threadingHTTPServer => true

/-- `serve_forever` of a non-threading server: each accepted connection is
processed to completion before the next one is accepted. Given the
handling duration of each queued connection, returns the (start, finish)
interval of each. -/
def serveSchedule (t : Nat) : List Nat → List (Nat × Nat)
| [] => []
| d :: ds => (t, t + d) :: serveSchedule (t + d) ds

/-! ## Claim theorems -/

/-- Characterization of `do_POST` on the `/transcribe` route: status 200
with the serialized `transcribe_audio` result on the fresh temporary
path, and the temporary file removed again unless `os.unlink` raised. -/
theorem do_POST_transcribe (env : Env) (g : Globals) (fs : FSState)
    (req : HttpRequest) (n : Nat)
    (hp : urlPath req.path = "/transcribe") (hcl : req.contentLength = some n) :
    do_POST env g fs req = Except.ok
      (⟨200, Body.json (resultJson
          (transcribe_audio g.model env.gen (tempName fs.nextTemp)).2)⟩,
       ⟨if env.unlinkRaises
          then fs.files ++ [(tempName fs.nextTemp, req.body.take n)]
          else unlinkFS (tempName fs.nextTemp)
                 (fs.files ++ [(tempName fs.nextTemp, req.body.take n)]),
        fs.nextTemp + 1⟩) := by
  cases hu : env.unlinkRaises <;> simp [do_POST, hp, hcl, hu]

/-- C2: any exception of the model call inside `transcribe_audio` is
converted into the structured result with `error` set and `text` empty,
never propagating (the embedding returns a total result, not an
exception), and the `/transcribe` handler reports the result with
status 200; in particular a raising model call yields the body
with error message and empty text at status 200. -/
theorem inference_failure_contained (env : Env) (g : Globals) (fs : FSState)
    (req : HttpRequest) (n : Nat)
    (hp : urlPath req.path = "/transcribe") (hcl : req.contentLength = some n) :
    (∀ (m : Model) (gen : Model → String → Except String String) (p e : String),
        gen m p = Except.error e →
        (transcribe_audio (some m) gen p).2 = ⟨"", some e⟩)
    ∧ (∃ fsAfter, do_POST env g fs req =
        Except.ok (⟨200, Body.json (resultJson
          (transcribe_audio g.model env.gen (tempName fs.nextTemp)).2)⟩, fsAfter))
    ∧ (∀ (m : Model) (e : String), g.model = some m →
        env.gen m (tempName fs.nextTemp) = Except.error e →
        ∃ fsAfter, do_POST env g fs req =
          Except.ok (⟨200, Body.json (Json.jobj
            [("error", Json.jstr e), ("text", Json.jstr "")])⟩, fsAfter)) := by
  refine ⟨?_, ?_, ?_⟩
  · intro m gen p e hg
    simp [transcribe_audio, withModelLock, generateRun, hg]
  · exact ⟨_, do_POST_transcribe env g fs req n hp hcl⟩
  · intro m e hm hg
    have h := do_POST_transcribe env g fs req n hp hcl
    refine ⟨⟨if env.unlinkRaises
               then fs.files ++ [(tempName fs.nextTemp, req.body.take n)]
               else unlinkFS (tempName fs.nextTemp)
                      (fs.files ++ [(tempName fs.nextTemp, req.body.take n)]),
             fs.nextTemp + 1⟩, Eq.trans h ?_⟩
    rw [hm]
    simp [transcribe_audio, withModelLock, generateRun, hg, resultJson]

theorem inference_failure_contained_witness :
    ∃ fsAfter,
      do_POST ⟨fun _ _ => Except.error "bad audio", fun _ => Except.error "x", false⟩
          ⟨some (), true⟩ ⟨[], 0⟩ ⟨"/transcribe", some 1, "a"⟩
        = Except.ok (⟨200, Body.json (Json.jobj
            [("error", Json.jstr "bad audio"), ("text", Json.jstr "")])⟩, fsAfter) :=
  (inference_failure_contained
      ⟨fun _ _ => Except.error "bad audio", fun _ => Except.error "x", false⟩
      ⟨some (), true⟩ ⟨[], 0⟩ ⟨"/transcribe", some 1, "a"⟩ 1 rfl rfl).2.2
    () "bad audio" rfl rfl

/-- C4: a `transcribe_audio` call with the model unset returns the
structured error result with no lock acquisition and no model invocation
(the event trace is empty). -/
theorem not_loaded_short_circuit (gen : Model → String → Except String String)
    (p : String) :
    (transcribe_audio none gen p).1 = []
    ∧ (transcribe_audio none gen p).2 = ⟨"", some "Model not loaded"⟩ :=
  ⟨rfl, rfl⟩

/-- C5: the readiness flag starts false, stays false while no successful
load occurs, and once true can never be reset by any operation of the
program. -/
theorem model_loaded_flag_monotone (ops more : List ProgOp) :
    ((∀ op ∈ ops, loadSucceeded op = false) →
       (runOps ops).model_loaded = false)
    ∧ ((runOps ops).model_loaded = true →
       (runOps (ops ++ more)).model_loaded = true) := by
  constructor
  · intro h
    have := foldl_loaded_of_no_load ops initGlobals h
    simpa [runOps, initGlobals] using this
  · intro h
    have hsplit : runOps (ops ++ more) = more.foldl applyOp (runOps ops) := by
      simp [runOps, List.foldl_append]
    rw [hsplit]
    exact foldl_loaded_mono more (runOps ops) h

theorem model_loaded_flag_monotone_witness :
    (runOps [ProgOp.load (Except.error "boom")]).model_loaded = false
    ∧ (runOps ([ProgOp.load (Except.ok ())] ++ [ProgOp.options])).model_loaded
        = true := by
  constructor
  · exact (model_loaded_flag_monotone [ProgOp.load (Except.error "boom")] []).1
      (by intro op h; simp at h; subst h; rfl)
  · exact (model_loaded_flag_monotone [ProgOp.load (Except.ok ())]
      [ProgOp.options]).2 rfl

/-- C3: the code constructs the non-threading `HTTPServer`, so connections
are handled strictly serially, one at a time: with two queued connections
of durations 5 and 1, the second starts only when the first finishes,
contradicting parallel per-connection handling. -/
theorem run_server_serial_blocks :
    handlesConcurrently run_server_serverClass = false
    ∧ serveSchedule 0 [5, 1] = [(0, 5), (5, 6)] :=
  ⟨rfl, rfl⟩

theorem all_filter_self {α : Type} (p : α → Bool) (l : List α) :
    (l.filter p).all p = true := by
  rw [List.all_eq_true]
  intro x hx
  exact (List.mem_filter.mp hx).2

/-- C6: a `/transcribe` request writes its body to a fresh temporary file
whose name ends in `.wav`, runs the model manager on that path, answers
200 with the serialized result, deletes the file afterwards whenever
`os.unlink` does not raise, and an unlink failure leaves the response
unchanged (never surfaced). -/
theorem transcribe_route_tempfile (env : Env) (g : Globals) (fs : FSState)
    (req : HttpRequest) (n : Nat)
    (hp : urlPath req.path = "/transcribe") (hcl : req.contentLength = some n) :
    (∃ pre, tempName fs.nextTemp = pre ++ ".wav")
    ∧ do_POST env g fs req = Except.ok
        (⟨200, Body.json (resultJson
            (transcribe_audio g.model env.gen (tempName fs.nextTemp)).2)⟩,
         ⟨if env.unlinkRaises
            then fs.files ++ [(tempName fs.nextTemp, req.body.take n)]
            else unlinkFS (tempName fs.nextTemp)
                   (fs.files ++ [(tempName fs.nextTemp, req.body.take n)]),
          fs.nextTemp + 1⟩)
    ∧ (env.unlinkRaises = false →
        (unlinkFS (tempName fs.nextTemp)
            (fs.files ++ [(tempName fs.nextTemp, req.body.take n)])).all
          (fun f => f.1 != tempName fs.nextTemp) = true)
    ∧ (do_POST ⟨env.gen, env.jloads, true⟩ g fs req).map Prod.fst
        = (do_POST ⟨env.gen, env.jloads, false⟩ g fs req).map Prod.fst := by
  refine ⟨⟨"/tmp/tmp" ++ toString fs.nextTemp, rfl⟩,
    do_POST_transcribe env g fs req n hp hcl, ?_, ?_⟩
  · intro _
    exact all_filter_self _ _
  · rw [do_POST_transcribe ⟨env.gen, env.jloads, true⟩ g fs req n hp hcl,
        do_POST_transcribe ⟨env.gen, env.jloads, false⟩ g fs req n hp hcl]
    rfl

theorem transcribe_route_tempfile_witness :
    (∃ pre, tempName (0 : Nat) = pre ++ ".wav")
    ∧ do_POST ⟨fun _ _ => Except.ok "hello", fun _ => Except.error "x", false⟩
          ⟨some (), true⟩ ⟨[], 0⟩ ⟨"/transcribe", some 3, "abc"⟩
        = Except.ok
            (⟨200, Body.json (Json.jobj
               [("text", Json.jstr "hello"), ("error", Json.jnull)])⟩,
             ⟨[], 1⟩) := by
  have h := transcribe_route_tempfile
    ⟨fun _ _ => Except.ok "hello", fun _ => Except.error "x", false⟩
    ⟨some (), true⟩ ⟨[], 0⟩ ⟨"/transcribe", some 3, "abc"⟩ 3 rfl rfl
  exact ⟨h.1, h.2.1⟩

theorem lookup_some_any {β : Type} (k : String) (l : List (String × β)) (v : β)
    (h : l.lookup k = some v) :
    l.any (fun kv => kv.1 == k) = true := by
  induction l with
  | nil => simp [List.lookup] at h
  | cons a l ih =>
    obtain ⟨a1, a2⟩ := a
    by_cases hk : k = a1
    · subst hk
      simp
    · have hkb : (k == a1) = false := by
        simp [hk]
      rw [List.lookup, hkb] at h
      have := ih h
      simp [List.any_cons, this]

/-- C7 fails as stated: a `/transcribe-file` request whose body is the
valid JSON document `5` lacks the key `path`, yet the handler does not
answer 400 with the structured error; the membership test raises an
uncaught TypeError. -/
theorem transcribe_file_scalar_body_uncaught :
    do_POST ⟨fun _ _ => Except.ok "t", fun _ => Except.ok (Json.jnum 5), false⟩
        ⟨some (), true⟩ ⟨[], 0⟩ ⟨"/transcribe-file", some 1, "5"⟩
      = Except.error "TypeError: argument of type int is not iterable" := rfl

/-- C7 amended: for a `/transcribe-file` request whose body decodes to a
JSON object, a missing `path` key answers 400 with the structured error,
and a string-valued `path` key runs the model manager directly on that
path and answers 200 with its result, the filesystem untouched (no
temporary file). -/
theorem transcribe_file_object_body (env : Env) (g : Globals) (fs : FSState)
    (req : HttpRequest) (n : Nat) (fields : List (String × Json))
    (hp : urlPath req.path = "/transcribe-file")
    (hcl : req.contentLength = some n)
    (hj : env.jloads (req.body.take n) = Except.ok (Json.jobj fields)) :
    (fields.any (fun kv => kv.1 == "path") = false →
      do_POST env g fs req = Except.ok (⟨400, Body.json noPathJson⟩, fs))
    ∧ (∀ s, fields.lookup "path" = some (Json.jstr s) →
      do_POST env g fs req = Except.ok
        (⟨200, Body.json (resultJson
           (transcribe_audio g.model env.gen s).2)⟩, fs)) := by
  constructor
  · intro hnone
    simp [do_POST, hp, hcl, hj, pyIn, hnone]
  · intro s hs
    have hany := lookup_some_any "path" fields (Json.jstr s) hs
    simp [do_POST, hp, hcl, hj, pyIn, hany, pyIndex, hs, pathArg]

theorem transcribe_file_object_body_witness :
    do_POST ⟨fun _ _ => Except.ok "t", fun _ => Except.ok (Json.jobj []), false⟩
        ⟨some (), true⟩ ⟨[], 0⟩ ⟨"/transcribe-file", some 2, "ab"⟩
      = Except.ok (⟨400, Body.json noPathJson⟩, ⟨[], 0⟩)
    ∧ do_POST ⟨fun _ _ => Except.error "no file",
          fun _ => Except.ok (Json.jobj [("path", Json.jstr "/a.wav")]), false⟩
        ⟨some (), true⟩ ⟨[], 0⟩ ⟨"/transcribe-file", some 2, "ab"⟩
      = Except.ok
          (⟨200, Body.json (resultJson
             (transcribe_audio (some ()) (fun _ _ => Except.error "no file")
               "/a.wav").2)⟩, ⟨[], 0⟩) :=
  ⟨(transcribe_file_object_body
      ⟨fun _ _ => Except.ok "t", fun _ => Except.ok (Json.jobj []), false⟩
      ⟨some (), true⟩ ⟨[], 0⟩ ⟨"/transcribe-file", some 2, "ab"⟩ 2 [] rfl rfl
      rfl).1 rfl,
   (transcribe_file_object_body
      ⟨fun _ _ => Except.error "no file",
        fun _ => Except.ok (Json.jobj [("path", Json.jstr "/a.wav")]), false⟩
      ⟨some (), true⟩ ⟨[], 0⟩ ⟨"/transcribe-file", some 2, "ab"⟩ 2
      [("path", Json.jstr "/a.wav")] rfl rfl rfl).2 "/a.wav" rfl⟩

/-- C8: every GET request whose path component is `/health` answers 200
with status ok and the readiness flag, every GET whose path component is
`/status` answers 200 with the flag and the model name, and in both
bodies the `model_loaded` field is exactly the flag. -/
theorem health_status_reflect_flag (loaded : Bool) (p : String) :
    (urlPath p = "/health" →
      do_GET loaded p = ⟨200, Body.json (healthJson loaded)⟩
      ∧ jlookup (healthJson loaded) "model_loaded" = some (Json.jbool loaded))
    ∧ (urlPath p = "/status" →
      do_GET loaded p = ⟨200, Body.json (statusJson loaded)⟩
      ∧ jlookup (statusJson loaded) "model_loaded" = some (Json.jbool loaded)) := by
  constructor <;> intro hp <;> refine ⟨?_, rfl⟩ <;> simp [do_GET, hp]

theorem health_status_reflect_flag_witness :
    (do_GET true "/health" = ⟨200, Body.json (healthJson true)⟩
     ∧ jlookup (healthJson true) "model_loaded" = some (Json.jbool true))
    ∧ (do_GET false "/status" = ⟨200, Body.json (statusJson false)⟩
     ∧ jlookup (statusJson false) "model_loaded" = some (Json.jbool false)) :=
  ⟨(health_status_reflect_flag true "/health").1 rfl,
   (health_status_reflect_flag false "/status").2 rfl⟩

/-- C10: a `/transcribe-file` request whose body `json.loads` rejects makes
the handler raise that exception uncaught before the `path` check; no
response, in particular no structured 400, is produced. -/
theorem invalid_json_uncaught (env : Env) (g : Globals) (fs : FSState)
    (req : HttpRequest) (n : Nat) (e : String)
    (hp : urlPath req.path = "/transcribe-file")
    (hcl : req.contentLength = some n)
    (hj : env.jloads (req.body.take n) = Except.error e) :
    do_POST env g fs req = Except.error e := by
  simp [do_POST, hp, hcl, hj]

theorem invalid_json_uncaught_witness :
    do_POST ⟨fun _ _ => Except.ok "t", fun _ => Except.error "Expecting value", false⟩
        ⟨some (), true⟩ ⟨[], 0⟩ ⟨"/transcribe-file", some 2, "hi"⟩
      = Except.error "Expecting value" :=
  invalid_json_uncaught
    ⟨fun _ _ => Except.ok "t", fun _ => Except.error "Expecting value", false⟩
    ⟨some (), true⟩ ⟨[], 0⟩ ⟨"/transcribe-file", some 2, "hi"⟩ 2
    "Expecting value" rfl rfl rfl
